import Mathlib

/-!
Verification of the heuristic data-structure inference and insight/visualization
engine of the smart business report generator.

The development shallowly embeds the Python modules `data_processor.py`,
`nlp_analyzer.py` and `visualizer.py`:

* Python scalar values (numbers, strings, `None`) are the inductive `Value`;
  a record (a `dict` row) is an association list `Record` with dict semantics
  (first position kept on key update, lookup finds the unique binding).
* Python floats are modelled as exact unnormalized rationals `PyNum`
  (an `Int` numerator over a positive `Nat` denominator).  All arithmetic is
  by cross multiplication, so every operation reduces inside the kernel.
  Float rounding noise of CPython is not modelled; every comparison and
  format is exact-rational.  `statistics.stdev` (the only irrational
  computation) is compared through squares, and the displayed coefficient of
  variation uses an integer-square-root approximation.
* Fallible Python code (expressions that can raise) returns `Except PyErr`;
  a `try/except` block is an explicit `match` on that result.
* `list(set(...))` deduplication is modelled as first-occurrence-preserving
  deduplication; it produces the same element set and the same length as
  CPython's set ordering, which is all the claims depend on.
-/

/-- A Python float / int, as an exact unnormalized rational:
numerator over positive denominator. -/
structure PyNum where
  num : Int
  den : Nat
  deriving DecidableEq, Repr

def PyNum.ofInt (n : Int) : PyNum := ⟨n, 1⟩

instance : OfNat PyNum n := ⟨⟨(n : Int), 1⟩⟩

def PyNum.add (a b : PyNum) : PyNum := ⟨a.num * b.den + b.num * a.den, a.den * b.den⟩

def PyNum.sub (a b : PyNum) : PyNum := ⟨a.num * b.den - b.num * a.den, a.den * b.den⟩

def PyNum.mul (a b : PyNum) : PyNum := ⟨a.num * b.num, a.den * b.den⟩

def PyNum.neg (a : PyNum) : PyNum := ⟨-a.num, a.den⟩

/-- Multiplicative inverse; the zero case is never reached by the embedded
code (every division in the source is guarded), the value there is arbitrary. -/
def PyNum.inv (a : PyNum) : PyNum :=
  if a.num > 0 then ⟨(a.den : Int), a.num.toNat⟩
  else if a.num < 0 then ⟨-(a.den : Int), a.num.natAbs⟩
  else ⟨0, 1⟩

def PyNum.div (a b : PyNum) : PyNum := a.mul b.inv

instance : Add PyNum := ⟨PyNum.add⟩
instance : Sub PyNum := ⟨PyNum.sub⟩
instance : Mul PyNum := ⟨PyNum.mul⟩
instance : Div PyNum := ⟨PyNum.div⟩
instance : Neg PyNum := ⟨PyNum.neg⟩

/-- Boolean `<` by cross multiplication (denominators are positive). -/
def PyNum.ltB (a b : PyNum) : Bool := a.num * b.den < b.num * a.den

/-- Boolean `≤` by cross multiplication. -/
def PyNum.leB (a b : PyNum) : Bool := a.num * b.den ≤ b.num * a.den

/-- Boolean value equality (`1/2 == 2/4`). -/
def PyNum.eqB (a b : PyNum) : Bool := a.num * b.den == b.num * a.den

def PyNum.absV (a : PyNum) : PyNum := ⟨a.num.natAbs, a.den⟩

def PyNum.sum (l : List PyNum) : PyNum := l.foldl (· + ·) 0

/-- Mean of a list; only applied to nonempty lists by the embedded code. -/
def PyNum.mean (l : List PyNum) : PyNum := PyNum.sum l / ⟨(l.length : Int), 1⟩

def PyNum.listMax : List PyNum → PyNum
  | [] => 0
  | x :: xs => xs.foldl (fun a b => if PyNum.ltB a b then b else a) x

def PyNum.listMin : List PyNum → PyNum
  | [] => 0
  | x :: xs => xs.foldl (fun a b => if PyNum.ltB b a then b else a) x

/-- Floor of a `PyNum` (Euclidean division by the positive denominator). -/
def PyNum.floorI (a : PyNum) : Int := a.num.ediv a.den

/-- Round to the nearest integer, ties to even (Python's float formatting
rounds the underlying binary double half-to-even; we round the exact
rational half-to-even). -/
def PyNum.roundHalfEven (a : PyNum) : Int :=
  let f := a.floorI
  let r := a.num - f * a.den
  if 2 * r < (a.den : Int) then f
  else if 2 * r > (a.den : Int) then f + 1
  else if f % 2 = 0 then f else f + 1

/-- Bounded binary search used for the integer square root approximation. -/
def natSqrtGo : Nat → Nat → Nat → Nat → Nat
  | 0, _, lo, _ => lo
  | fuel + 1, n, lo, hi =>
    if hi ≤ lo + 1 then lo
    else
      let mid := (lo + hi) / 2
      if mid * mid ≤ n then natSqrtGo fuel n mid hi else natSqrtGo fuel n lo mid

def natSqrtApprox (n : Nat) : Nat := if n = 0 then 0 else natSqrtGo 64 n 0 (n + 1)

/-- Approximate square root of a nonnegative `PyNum`, to six decimal places.
Models the irrational `math`-level square root inside `statistics.stdev`. -/
def PyNum.sqrtApprox (a : PyNum) : PyNum :=
  ⟨(natSqrtApprox ((a.mul ⟨(10 : Int) ^ 12, 1⟩).floorI.toNat) : Int), 10 ^ 6⟩

/-! ### Character / string utilities (Python string methods) -/

def digitChar (n : Nat) : Char := Char.ofNat (48 + n)

/-- Decimal digits of a natural number, most significant first (fuel-based so
that it reduces in the kernel). -/
def natDigitsAux : Nat → Nat → List Char
  | 0, _ => []
  | fuel + 1, n => if n < 10 then [digitChar n] else natDigitsAux fuel (n / 10) ++ [digitChar (n % 10)]

def natDigits (n : Nat) : List Char := natDigitsAux (n + 1) n

/-- Fixed-point formatting `f"{x:.prec f}"` (with `prec ≥ 1`): round the scaled
value half-to-even, then print sign, integer digits, point, fraction digits.
A negative value rounding to zero keeps its sign, as CPython does. -/
def fmtFixed (prec : Nat) (q : PyNum) : String :=
  let n := (q.mul ⟨(10 : Int) ^ prec, 1⟩).roundHalfEven
  let ds := natDigits n.natAbs
  let ds := List.replicate (prec + 1 - ds.length) '0' ++ ds
  let sign : List Char := if q.num < 0 then ['-'] else []
  ⟨sign ++ ds.take (ds.length - prec) ++ '.' :: ds.drop (ds.length - prec)⟩

def fmt2 (q : PyNum) : String := fmtFixed 2 q

def fmt1 (q : PyNum) : String := fmtFixed 1 q

/-- Lowercasing of one character (`str.lower`, ASCII range). -/
def pyLowerChar (c : Char) : Char :=
  if 65 ≤ c.toNat ∧ c.toNat ≤ 90 then Char.ofNat (c.toNat + 32) else c

def pyLower (s : String) : String := ⟨s.data.map pyLowerChar⟩

/-- Python `str.strip()` on a character list: drop whitespace from both ends. -/
def trimList (l : List Char) : List Char :=
  ((l.dropWhile Char.isWhitespace).reverse.dropWhile Char.isWhitespace).reverse

def pyStrip (s : String) : String := ⟨trimList s.data⟩

/-- Python `str.replace(' ', '_')` at the character level. -/
def spaceToUnderscore (c : Char) : Char := if c = ' ' then '_' else c

def pyUnderscore (s : String) : String := ⟨s.data.map spaceToUnderscore⟩

/-- Python `field.replace('_', ' ')` used for display names. -/
def underscoreToSpace (s : String) : String :=
  ⟨s.data.map (fun c => if c = '_' then ' ' else c)⟩

/-- Substring test `pat in s` (Python `in` on strings). -/
def containsSubAux (pat : List Char) : List Char → Bool
  | [] => pat.isEmpty
  | c :: rest => pat.isPrefixOf (c :: rest) || containsSubAux pat rest

def containsSub (s pat : String) : Bool := containsSubAux pat.data s.data

/-- Python `str` lexicographic `<` by code points. -/
def charListLt : List Char → List Char → Bool
  | [], [] => false
  | [], _ :: _ => true
  | _ :: _, [] => false
  | a :: as, b :: bs =>
    if a.toNat < b.toNat then true
    else if b.toNat < a.toNat then false
    else charListLt as bs

def strLtB (a b : String) : Bool := charListLt a.data b.data

/-- Stable insertion sort: insert `x` before the first element `y` with
`le x y`; combined with sorting the tail first this is a stable sort, like
CPython's `sorted`. -/
def sInsert (le : α → α → Bool) (x : α) : List α → List α
  | [] => [x]
  | y :: ys => if le x y then x :: y :: ys else y :: sInsert le x ys

def sSort (le : α → α → Bool) : List α → List α
  | [] => []
  | x :: xs => sInsert le x (sSort le xs)

/-! ### The Python value / record model -/

/-- A Python scalar value as it appears in a decoded record: a number
(int or float, both exact here), a string, or `None`. -/
inductive Value where
  | num (q : PyNum)
  | str (s : String)
  | null
  deriving DecidableEq, Repr

/-- A record (a `dict` row): association list with dict semantics. -/
abbrev Record := List (String × Value)

/-- Dict lookup: the unique binding of a key (first binding of the list). -/
def Record.lookupV (r : Record) (k : String) : Option Value :=
  match r with
  | [] => none
  | (k', v) :: rest => if k' = k then some v else Record.lookupV rest k

/-- Python `key in item`. -/
def Record.hasKey (r : Record) (k : String) : Bool := (r.lookupV k).isSome

/-- Dict assignment `d[k] = v`: update in place (keeping the position of the
first insertion), else append. -/
def recUpsert (k : String) (v : Value) : Record → Record
  | [] => [(k, v)]
  | (k', v') :: rest => if k' = k then (k, v) :: rest else (k', v') :: recUpsert k v rest

def Record.keys (r : Record) : List String := r.map Prod.fst

def Value.isNull : Value → Bool
  | .null => true
  | _ => false

def Value.isNum : Value → Bool
  | .num _ => true
  | _ => false

def Value.isStr : Value → Bool
  | .str _ => true
  | _ => false

/-- Python truthiness of a scalar: `None`, `0` and `""` are falsy. -/
def Value.truthy : Value → Bool
  | .null => false
  | .num q => !(q.eqB 0)
  | .str s => s ≠ ""

/-- Python `==` on scalars (numbers compare by value). -/
def Value.eqV : Value → Value → Bool
  | .num a, .num b => a.eqB b
  | .str a, .str b => a = b
  | .null, .null => true
  | _, _ => false

/-- Python `str.isdigit()` restricted to ASCII digits (the Unicode digit classes of
CPython are not modelled; every value in the claims is ASCII). -/
def allDigits (l : List Char) : Bool := !l.isEmpty && l.all Char.isDigit

/-- Python `value.replace('.', '', 1)`: remove the first `'.'`, if any. -/
def removeFirstDot : List Char → List Char
  | [] => []
  | c :: rest => if c = '.' then rest else c :: removeFirstDot rest

/-- The repeated numeric-string test of the source:
`isinstance(value, str) and value.replace('.', '', 1).isdigit()`. -/
def pyDigitCheck (s : String) : Bool := allDigits (removeFirstDot s.data)

/-- The numeric test applied to candidate values:
`isinstance(value, (int, float)) or (isinstance(value, str) and ...isdigit())`. -/
def isNumericish : Value → Bool
  | .num _ => true
  | .str s => pyDigitCheck s
  | .null => false

def digitsToNat (l : List Char) : Nat := l.foldl (fun a c => a * 10 + (c.toNat - 48)) 0

/-- Parse a digits-with-at-most-one-dot string (one that passed
`pyDigitCheck`) into an exact rational, like `float(value)` does. -/
def parseDigitString (s : String) : PyNum :=
  let parts := s.data.splitOn '.'
  match parts with
  | [i] => ⟨(digitsToNat i : Int), 1⟩
  | [i, f] => ⟨(digitsToNat i * 10 ^ f.length + digitsToNat f : Int), 10 ^ f.length⟩
  | _ => 0

/-- Errors raised by embedded Python code.  The payload is informational. -/
abbrev PyErr := String

/-- Python `float(x)`: numbers pass through, strings parse (optionally signed,
digits with at most one dot, surrounding whitespace allowed), anything else
raises. -/
def pyFloat : Value → Except PyErr PyNum
  | .num q => .ok q
  | .null => .error "TypeError: float() argument"
  | .str s =>
    let t := trimList s.data
    match t with
    | '-' :: rest => if allDigits (removeFirstDot rest) then .ok (-(parseDigitString ⟨rest⟩)) else .error "ValueError"
    | '+' :: rest => if allDigits (removeFirstDot rest) then .ok (parseDigitString ⟨rest⟩) else .error "ValueError"
    | rest => if allDigits (removeFirstDot rest) then .ok (parseDigitString ⟨rest⟩) else .error "ValueError"

/-- Integer digits of a `PyNum`, with sign, no fraction handling: helper for
`pyStr` below. -/
def intStr (n : Int) : String :=
  ⟨(if n < 0 then ['-'] else []) ++ natDigits n.natAbs⟩

/-- Python `str(value)`.  For a float the exact repr of CPython is
shortest-roundtrip; we print integers as `n.0` and approximate the rest with
six decimals.  Every category label in the claims is a string, where `str`
is the identity. -/
def pyStr : Value → String
  | .str s => s
  | .null => "None"
  | .num q => if (q.num % (q.den : Int)) = 0 then intStr (q.num / (q.den : Int)) ++ ".0" else fmtFixed 6 q

/-! ### `data_processor.py` -/

/-- Key normalization of `clean_data`:
`key.strip().lower().replace(' ', '_')`. -/
def cleanKey (k : String) : String := pyUnderscore (pyLower (pyStrip k))

/-- Value normalization of `clean_data`: `pd.isna` sends the missing sentinel
to `None` (in this model only `None` itself is `isna`); a digit-string becomes
a float; everything else is unchanged. -/
def cleanValue : Value → Value
  | .null => .null
  | .num q => .num q
  | .str s => if pyDigitCheck s then .num (parseDigitString s) else .str s

/-- One record of `clean_data`: iterate the items and dict-assign the cleaned
pair (capturing the overwrite when two raw keys clean to the same name). -/
def cleanItem (r : Record) : Record :=
  r.foldl (fun acc kv => recUpsert (cleanKey kv.1) (cleanValue kv.2) acc) []

/-- Function `clean_data` on a list of records. -/
def cleanData (data : List Record) : List Record := data.map cleanItem

/-- The canonical financial targets with their name substrings, in
declaration order. -/
def financialFields : List (String × List String) :=
  [("revenue", ["revenue", "sales", "income", "earnings", "amt", "amount", "total"]),
   ("expenses", ["expenses", "costs", "expenditure", "expense"]),
   ("profit", ["profit", "net_income", "net_profit", "gross_profit"]),
   ("date", ["date", "period", "month", "year", "quarter"]),
   ("category", ["category", "department", "division", "segment", "product_line", "product"])]

/-- Association-list update used for `field_mapping[key] = field_type`
(string-valued dict). -/
def mapUpsert (k v : String) : List (String × String) → List (String × String)
  | [] => [(k, v)]
  | (k', v') :: rest => if k' = k then (k, v) :: rest else (k', v') :: mapUpsert k v rest

/-- First key of the sample whose lowercased name contains one of the target's
substrings (`break` on the first hit). -/
def firstMatchingKey (sample : Record) (names : List String) : Option String :=
  (sample.map Prod.fst).find? (fun key => names.any (fun n => containsSub (pyLower key) n))

/-- The `field_mapping` dict of `detect_financial_structure`: for each target
in declaration order, claim the first matching key of the first record.  A
later target overwrites an earlier target's claim on the same key, exactly as
the Python dict assignment does. -/
def fieldMapping (sample : Record) : List (String × String) :=
  financialFields.foldl
    (fun m tf =>
      match firstMatchingKey sample tf.2 with
      | some key => mapUpsert key tf.1 m
      | none => m)
    []

/-- Rebuild one record under the mapping: mapped canonical keys first (in
mapping order), then every original field not claimed by the mapping. -/
def normalizeItem (mapping : List (String × String)) (item : Record) : Record :=
  let mapped := mapping.foldl
    (fun acc kv =>
      match item.lookupV kv.1 with
      | some v => recUpsert kv.2 v acc
      | none => acc)
    []
  item.foldl
    (fun acc kv => if (mapping.map Prod.fst).contains kv.1 then acc else recUpsert kv.1 kv.2 acc)
    mapped

/-- Function `detect_financial_structure`. -/
def detectFinancialStructure (data : List Record) : List Record :=
  match data with
  | [] => data
  | sample :: _ =>
    let mapping := fieldMapping sample
    if mapping.length < 2 then data
    else data.map (normalizeItem mapping)

/-! ### `nlp_analyzer.py` -/

/-- An element of the list handed to `analyze_data`: a record (dict) or any
non-dict object, on which `.items()`, `key in item` and `item[key]` raise. -/
inductive Elt where
  | obj (r : Record)
  | nondict
  deriving DecidableEq

/-- The input of `analyze_data`: a Python list, or any non-list object
(`None`, a dict, a string, a number, ...). -/
inductive PyInput where
  | ofList (l : List Elt)
  | notList
  deriving DecidableEq

def asRecord : Elt → Except PyErr Record
  | .obj r => .ok r
  | .nondict => .error "AttributeError / TypeError: not a dict"

def toElts (rs : List Record) : List Elt := rs.map Elt.obj

/-- Test `field in item and (item[field] is numeric-ish)` for the coverage count;
raises when `item` is not a dict. -/
def eltFieldNumeric (field : String) (e : Elt) : Except PyErr Bool := do
  let r ← asRecord e
  match r.lookupV field with
  | some v => pure (isNumericish v)
  | none => pure false

def countNumericIn (field : String) : List Elt → Except PyErr Nat
  | [] => .ok 0
  | e :: rest => do
    let b ← eltFieldNumeric field e
    let n ← countNumericIn field rest
    pure (n + if b then 1 else 0)

/-- The `>= 0.8` coverage test, written exactly as the source computes it:
`numeric_count / len(data) >= 0.8` on floats (here exact rationals). -/
def coverageOk (cnt total : Nat) : Bool :=
  PyNum.leB ⟨8, 10⟩ (PyNum.div ⟨(cnt : Int), 1⟩ ⟨(total : Int), 1⟩)

def collectNumericFields (data : List Elt) (total : Nat) : List String → Except PyErr (List String)
  | [] => .ok []
  | f :: fs => do
    let cnt ← countNumericIn f data
    let rest ← collectNumericFields data total fs
    pure (if coverageOk cnt total then f :: rest else rest)

/-- Function `identify_numeric_fields`: candidates from the first record, confirmed by
the 80% coverage threshold over all records. -/
def identifyNumericFields (data : List Elt) : Except PyErr (List String) :=
  match data with
  | [] => .ok []
  | e :: _ => do
    let sample ← asRecord e
    let candidates := (sample.filter (fun kv => isNumericish kv.2)).map Prod.fst
    collectNumericFields data data.length candidates

def dateIndicators : List String :=
  ["date", "period", "month", "year", "quarter", "day", "week"]

def categoryIndicators : List String :=
  ["category", "type", "department", "division", "segment", "product", "region", "country"]

def keyMatchesAny (indicators : List String) (key : String) : Bool :=
  indicators.any (fun ind => containsSub (pyLower key) ind)

/-- Function `identify_date_fields`: name-substring match over the first record's keys. -/
def identifyDateFields (data : List Elt) : Except PyErr (List String) :=
  match data with
  | [] => .ok []
  | e :: _ => do
    let sample ← asRecord e
    pure ((sample.map Prod.fst).filter (keyMatchesAny dateIndicators))

/-- Function `identify_category_fields`. -/
def identifyCategoryFields (data : List Elt) : Except PyErr (List String) :=
  match data with
  | [] => .ok []
  | e :: _ => do
    let sample ← asRecord e
    pure ((sample.map Prod.fst).filter (keyMatchesAny categoryIndicators))

/-- The value collection of the statistical generator, line 163 of the source:
`[float(item[field]) for item in data if field in item and item[field] is not None]`.
This comprehension sits OUTSIDE the per-field `try` block, so a coercion
failure raises out of `generate_statistical_insights`. -/
def statValues (field : String) : List Elt → Except PyErr (List PyNum)
  | [] => .ok []
  | e :: rest => do
    let r ← asRecord e
    let head ← match r.lookupV field with
      | some v => if v.isNull then pure [] else do
          let q ← pyFloat v
          pure [q]
      | none => pure ([] : List PyNum)
    let tail ← statValues field rest
    pure (head ++ tail)

def revenueTerms : List String := ["revenue", "profit", "sales", "income"]

/-- The variability insights (`len(values) >= 5` branch).  The comparisons
`variability > 30` / `< 10` are decided exactly through squared variance;
the printed coefficient uses the square-root approximation. -/
def variabilityInsights (disp : String) (values : List PyNum) (average : PyNum) : List String :=
  let n := values.length
  let varE := PyNum.div (PyNum.sum (values.map (fun x => (x - average) * (x - average)))) ⟨(n : Int) - 1, 1⟩
  if PyNum.ltB 0 average then
    let cv := PyNum.mul (PyNum.div varE.sqrtApprox average) 100
    if PyNum.ltB (PyNum.mul 900 (average * average)) (PyNum.mul varE 10000) then
      [s!"There is high variability in {disp} (coefficient of variation: {fmt1 cv}%)."]
    else if PyNum.ltB (PyNum.mul varE 10000) (PyNum.mul 100 (average * average)) then
      [s!"There is low variability in {disp} (coefficient of variation: {fmt1 cv}%)."]
    else []
  else
    [s!"There is low variability in {disp} (coefficient of variation: {fmt1 0}%)."]

/-- The body of the per-field `try` of the statistical generator (nothing in
it can raise once the values are collected). -/
def statBody (field : String) (values : List PyNum) : List String :=
  let total := PyNum.sum values
  let n := values.length
  let average := PyNum.div total ⟨(n : Int), 1⟩
  let maximum := PyNum.listMax values
  let minimum := PyNum.listMin values
  if n ≥ 3 then
    let disp := underscoreToSpace field
    [s!"The total {disp} is {fmt2 total}.",
     s!"The average {disp} is {fmt2 average}.",
     s!"The maximum {disp} recorded is {fmt2 maximum}.",
     s!"The minimum {disp} recorded is {fmt2 minimum}."]
    ++ (if revenueTerms.any (fun t => containsSub (pyLower field) t) then
          let pd := if PyNum.ltB 0 minimum then PyNum.mul (PyNum.div (maximum - minimum) minimum) 100 else 0
          [s!"There is a {fmt1 pd}% difference between the highest and lowest {disp}."]
        else [])
    ++ (if n ≥ 5 then variabilityInsights disp values average else [])
  else []

/-- Function `generate_statistical_insights`: per numeric field, collect values (may
raise) then emit the statistics; an empty value list skips the field. -/
def generateStatisticalInsights (data : List Elt) : List String → Except PyErr (List String)
  | [] => .ok []
  | f :: fs => do
    let values ← statValues f data
    let rest ← generateStatisticalInsights data fs
    pure ((if values.isEmpty then [] else statBody f values) ++ rest)

/-- Sort a list of pairs by raw date key, as Python `list.sort(key=...)` does:
strings compare lexicographically, numbers by value, a mixed list raises
`TypeError` (which the per-field `try` of the callers swallows). -/
def sortByDateKey (ps : List (Value × PyNum)) : Except PyErr (List (Value × PyNum)) :=
  if ps.all (fun p => p.1.isStr) then
    .ok (sSort (fun a b =>
      match a.1, b.1 with
      | .str x, .str y => !(strLtB y x)
      | _, _ => true) ps)
  else if ps.all (fun p => p.1.isNum) then
    .ok (sSort (fun a b =>
      match a.1, b.1 with
      | .num x, .num y => x.leB y
      | _, _ => true) ps)
  else .error "TypeError: unorderable"

/-- Same for the raw date keys of the complex generator. -/
def sortDateValues (vs : List Value) : Except PyErr (List Value) :=
  if vs.all Value.isStr then
    .ok (sSort (fun a b =>
      match a, b with
      | .str x, .str y => !(strLtB y x)
      | _, _ => true) vs)
  else if vs.all Value.isNum then
    .ok (sSort (fun a b =>
      match a, b with
      | .num x, .num y => x.leB y
      | _, _ => true) vs)
  else .error "TypeError: unorderable"

/-- The `(date, value)` pair collection of the trend generator:
both fields present, date truthy, value not `None`. -/
def trendPairs (dateField numField : String) : List Elt → Except PyErr (List (Value × PyNum))
  | [] => .ok []
  | e :: rest => do
    let r ← asRecord e
    let head ← match r.lookupV dateField, r.lookupV numField with
      | some dv, some nv =>
        if dv.truthy && !nv.isNull then do
          let q ← pyFloat nv
          pure [(dv, q)]
        else pure []
      | _, _ => pure ([] : List (Value × PyNum))
    let tail ← trendPairs dateField numField rest
    pure (head ++ tail)

/-- The segment analysis of the trend generator (`len(data_points) >= 6`). -/
def segmentInsights (disp : String) (vals : List PyNum) : List String :=
  if vals.length ≥ 6 then
    let segments := min 4 (vals.length / 2)
    let segSize := vals.length / segments
    let segAvgs := (List.range segments).map (fun i =>
      let start := i * segSize
      let stop := if i < segments - 1 then start + segSize else vals.length
      PyNum.mean ((vals.drop start).take (stop - start)))
    let firstA := segAvgs.headD 0
    let lastA := segAvgs.getLastD 0
    let sc := if PyNum.ltB 0 firstA then PyNum.mul (PyNum.div (lastA - firstA) firstA) 100 else 0
    if PyNum.ltB 15 sc then
      [s!"The {disp} shows a strong positive trend in the most recent period (change: {fmt1 sc}%)."]
    else if PyNum.ltB sc (-15) then
      [s!"The {disp} shows a concerning downward trend in the most recent period (change: {fmt1 sc.absV}%)."]
    else []
  else []

/-- Everything inside the per-field `try` of `generate_trend_insights`. -/
def trendForField (data : List Elt) (dateField numField : String) : Except PyErr (List String) := do
  let pairs ← trendPairs dateField numField data
  if pairs.length < 3 then pure [] else do
  let sorted ← sortByDateKey pairs
  let vals := sorted.map Prod.snd
  let firstV := vals.headD 0
  let lastV := vals.getLastD 0
  let pc := if PyNum.ltB 0 firstV then PyNum.mul (PyNum.div (lastV - firstV) firstV) 100 else 0
  let disp := underscoreToSpace numField
  let main :=
    if PyNum.ltB 10 pc then
      s!"The {disp} shows an increasing trend of {fmt1 pc}% over the analyzed period."
    else if PyNum.ltB pc (-10) then
      s!"The {disp} shows a decreasing trend of {fmt1 pc.absV}% over the analyzed period."
    else
      s!"The {disp} remains relatively stable over the analyzed period (change: {fmt1 pc}%)."
  pure ([main] ++ segmentInsights disp vals)

/-- Function `generate_trend_insights`: first date field, all numeric fields, the
per-field `try` swallows any error of that field. -/
def generateTrendInsights (data : List Elt) (dateFields numericFields : List String) : List String :=
  match dateFields with
  | [] => []
  | dateField :: _ =>
    if numericFields.isEmpty then []
    else numericFields.foldl (fun acc nf =>
      acc ++ (match trendForField data dateField nf with
              | .ok l => l
              | .error _ => [])) []

/-- Insertion-ordered grouping dict `category -> values`. -/
def groupInsert (k : String) (v : PyNum) : List (String × List PyNum) → List (String × List PyNum)
  | [] => [(k, [v])]
  | (k', vs) :: rest => if k' = k then (k', vs ++ [v]) :: rest else (k', vs) :: groupInsert k v rest

/-- The `(str(category), float(value))` pair collection of the category
generator: both fields present and not `None`. -/
def catPairs (catField numField : String) : List Elt → Except PyErr (List (String × PyNum))
  | [] => .ok []
  | e :: rest => do
    let r ← asRecord e
    let head ← match r.lookupV catField, r.lookupV numField with
      | some cv, some nv =>
        if !cv.isNull && !nv.isNull then do
          let q ← pyFloat nv
          pure [(pyStr cv, q)]
        else pure []
      | _, _ => pure ([] : List (String × PyNum))
    let tail ← catPairs catField numField rest
    pure (head ++ tail)

/-- Descending stable sort by the numeric second component
(`sorted(..., key=lambda x: x[1], reverse=True)`). -/
def sortDescBySnd (l : List (String × PyNum)) : List (String × PyNum) :=
  sSort (fun a b => b.2.leB a.2) l

/-- Everything inside the per-field `try` of `generate_category_insights`. -/
def catForField (data : List Elt) (catField numField : String) : Except PyErr (List String) := do
  let pairs ← catPairs catField numField data
  let groups := pairs.foldl (fun g kv => groupInsert kv.1 kv.2 g) []
  if groups.length < 2 then pure [] else
  let avgs := groups.map (fun g => (g.1, PyNum.mean g.2))
  let sorted := sortDescBySnd avgs
  let disp := underscoreToSpace numField
  let ins1 :=
    if sorted.length ≥ 2 then
      let top := sorted.headD ("", 0)
      let bottom := sorted.getLastD ("", 0)
      let gap := if PyNum.ltB 0 bottom.2 then PyNum.mul (PyNum.div (top.2 - bottom.2) bottom.2) 100 else 0
      [s!"The best performing category in terms of {disp} is \x27{top.1}\x27 with an average of {fmt2 top.2}.",
       s!"The lowest performing category in terms of {disp} is \x27{bottom.1}\x27 with an average of {fmt2 bottom.2}."]
      ++ (if PyNum.ltB 50 gap then
            [s!"There is a significant performance gap of {fmt1 gap}% between the top and bottom categories for {disp}."]
          else [])
    else []
  let ins2 :=
    if sorted.length ≥ 3 then
      let total := PyNum.sum (sorted.map Prod.snd)
      let domIns :=
        match sorted.find? (fun p =>
          PyNum.ltB 40 (if PyNum.ltB 0 total then PyNum.mul (PyNum.div p.2 total) 100 else 0)) with
        | some p =>
          let contribution := if PyNum.ltB 0 total then PyNum.mul (PyNum.div p.2 total) 100 else 0
          [s!"The \x27{p.1}\x27 category dominates with {fmt1 contribution}% of the total {disp}."]
        | none => []
      domIns ++
        (if sorted.length ≥ 4 then
          let topTwo := PyNum.sum ((sorted.map Prod.snd).take 2)
          let share := if PyNum.ltB 0 total then PyNum.mul (PyNum.div topTwo total) 100 else 0
          if PyNum.ltB 70 share then
            [s!"Top two categories represent {fmt1 share}% of the total {disp}, indicating high concentration."]
          else []
        else [])
    else []
  pure (ins1 ++ ins2)

/-- Function `generate_category_insights`: first category field, all numeric fields,
per-field errors swallowed. -/
def generateCategoryInsights (data : List Elt) (categoryFields numericFields : List String) : List String :=
  match categoryFields with
  | [] => []
  | catField :: _ =>
    if numericFields.isEmpty then []
    else numericFields.foldl (fun acc nf =>
      acc ++ (match catForField data catField nf with
              | .ok l => l
              | .error _ => [])) []

/-- Nested grouping dict `category -> date -> values` of the complex
generator, insertion-ordered at both levels. -/
def dateGroupInsert (d : Value) (v : PyNum) : List (Value × List PyNum) → List (Value × List PyNum)
  | [] => [(d, [v])]
  | (d', vs) :: rest => if d'.eqV d then (d', vs ++ [v]) :: rest else (d', vs) :: dateGroupInsert d v rest

def orgInsert (c : String) (d : Value) (v : PyNum) :
    List (String × List (Value × List PyNum)) → List (String × List (Value × List PyNum))
  | [] => [(c, [(d, [v])])]
  | (c', dd) :: rest =>
    if c' = c then (c', dateGroupInsert d v dd) :: rest else (c', dd) :: orgInsert c d v rest

/-- Row collection of the complex generator: all three fields present and not
`None`; the value coerced by `float` (which may raise). -/
def complexRows (dateField catField numField : String) :
    List Elt → Except PyErr (List (String × Value × PyNum))
  | [] => .ok []
  | e :: rest => do
    let r ← asRecord e
    let head ← match r.lookupV dateField, r.lookupV catField, r.lookupV numField with
      | some dv, some cv, some nv =>
        if !dv.isNull && !cv.isNull && !nv.isNull then do
          let q ← pyFloat nv
          pure [(pyStr cv, dv, q)]
        else pure []
      | _, _, _ => pure ([] : List (String × Value × PyNum))
    let tail ← complexRows dateField catField numField rest
    pure (head ++ tail)

def valuesAt (dd : List (Value × List PyNum)) (d : Value) : List PyNum :=
  match dd.find? (fun p => p.1.eqV d) with
  | some p => p.2
  | none => []

/-- Growth rate per category (earliest vs latest date by raw sort order);
sorting a category's raw date keys may raise on mixed types. -/
def growthRates : List (String × List (Value × List PyNum)) → Except PyErr (List (String × PyNum))
  | [] => .ok []
  | (cat, dd) :: rest => do
    let tail ← growthRates rest
    if dd.length < 2 then pure tail else do
    let sortedDates ← sortDateValues (dd.map Prod.fst)
    let earliest := sortedDates.headD .null
    let latest := sortedDates.getLastD .null
    let eAvg := PyNum.mean (valuesAt dd earliest)
    let lAvg := PyNum.mean (valuesAt dd latest)
    let gr := if PyNum.ltB 0 eAvg then PyNum.mul (PyNum.div (lAvg - eAvg) eAvg) 100 else 0
    pure ((cat, gr) :: tail)

/-- Everything inside the per-field `try` of `generate_complex_insights`. -/
def complexForField (data : List Elt) (dateField catField numField : String) :
    Except PyErr (List String) := do
  let rows ← complexRows dateField catField numField data
  let organized := rows.foldl (fun g r => orgInsert r.1 r.2.1 r.2.2 g) []
  if organized.length < 2 then pure [] else do
  let rates ← growthRates organized
  if rates.length < 2 then pure [] else
  let sorted := sortDescBySnd rates
  let fastest := sorted.headD ("", 0)
  let slowest := sorted.getLastD ("", 0)
  let disp := underscoreToSpace numField
  let ins :=
    [s!"The fastest growing category for {disp} is \x27{fastest.1}\x27 with a growth rate of {fmt1 fastest.2}%."]
    ++ (if PyNum.ltB slowest.2 0 then
          [s!"The category \x27{slowest.1}\x27 is showing a decline of {fmt1 slowest.2.absV}% in {disp}."]
        else
          [s!"The slowest growing category for {disp} is \x27{slowest.1}\x27 with a growth rate of {fmt1 slowest.2}%."])
    ++ (let diff := fastest.2 - slowest.2
        if PyNum.ltB 50 diff then
          [s!"There is a significant growth gap of {fmt1 diff}% between the best and worst performing categories for {disp}."]
        else [])
  pure ins

/-- Function `generate_complex_insights`: first date and category fields, all numeric
fields, per-field errors swallowed. -/
def generateComplexInsights (data : List Elt) (dateFields categoryFields numericFields : List String) : List String :=
  match dateFields, categoryFields with
  | dateField :: _, catField :: _ =>
    if numericFields.isEmpty then []
    else numericFields.foldl (fun acc nf =>
      acc ++ (match complexForField data dateField catField nf with
              | .ok l => l
              | .error _ => [])) []
  | _, _ => []

/-- The five static recommendation strings of `generate_recommendations`. -/
def recommendations : List String :=
  ["Consider conducting a detailed analysis of your best performing segments to identify success factors that can be applied elsewhere.",
   "Regular financial monitoring and reporting can help identify trends earlier and improve decision-making.",
   "Diversify revenue streams to reduce dependency on any single source and increase business resilience.",
   "Implement forecasting models to better predict future performance and prepare accordingly.",
   "Review cost structures periodically to identify opportunities for optimization and improved margins."]

/-- First-occurrence-preserving deduplication, modelling `list(set(...))`
up to ordering (same element set, same length). -/
def dedupAux (seen : List String) : List String → List String
  | [] => []
  | x :: xs => if seen.contains x then dedupAux seen xs else x :: dedupAux (x :: seen) xs

def dedup (l : List String) : List String := dedupAux [] l

/-- The insight gathering phase of `analyze_data`: classify fields, then run
the four generators in order.  Errors escaping a generator (only possible in
field identification or in the statistical value collection) propagate. -/
def gatherInsights (data : List Elt) : Except PyErr (List String) := do
  let numericFields ← identifyNumericFields data
  let dateFields ← identifyDateFields data
  let categoryFields ← identifyCategoryFields data
  let statIns ← generateStatisticalInsights data numericFields
  let trendIns := if dateFields.isEmpty then [] else generateTrendInsights data dateFields numericFields
  let catIns := if categoryFields.isEmpty then [] else generateCategoryInsights data categoryFields numericFields
  let cplxIns := if dateFields.isEmpty || categoryFields.isEmpty then []
                 else generateComplexInsights data dateFields categoryFields numericFields
  pure (statIns ++ trendIns ++ catIns ++ cplxIns)

def insufficientMsg : String := "Insufficient data for analysis."

def analysisErrorMsg : String := "Error analyzing data. Please check the input format."

/-- Function `analyze_data`: the falsy / non-list guard, the outer `try/except`, the
set-based dedup and the below-3 recommendation fallback. -/
def analyzeData : PyInput → List String
  | .notList => [insufficientMsg]
  | .ofList data =>
    if data.isEmpty then [insufficientMsg]
    else
      match gatherInsights data with
      | .error _ => [analysisErrorMsg]
      | .ok ins =>
        let u := dedup ins
        if u.length < 3 then u ++ recommendations else u

/-! ### `visualizer.py`

The DataFrame built from the record list is modelled by its column list
(keys in first-appearance order across ALL records) plus the records
themselves.  A column has numeric dtype iff every present value is a number
or `None` (pandas turns `None` into `NaN` in a numeric column) and at least
one value is an actual number (an all-`None` column is `object` dtype).
Missing / `NaN` entries of a numeric column are `none` below.  Group keys
are kept in first-appearance order: pandas sorts them (and raises on
non-comparable mixed-type keys, turning the chart into `None` through the
enclosing `try`); no claim depends on the group order, and the omitted
failure mode only makes the universally-quantified invariant claim cover
more charts. -/

def addCols (acc : List String) (r : Record) : List String :=
  r.foldl (fun a kv => if a.contains kv.1 then a else a ++ [kv.1]) acc

/-- Columns `df.columns`: keys in first-appearance order over all records. -/
def dfColumns (data : List Record) : List String := data.foldl addCols []

/-- Numeric-dtype test for a column (`df.select_dtypes(include=['number'])`). -/
def isNumericColumn (data : List Record) (c : String) : Bool :=
  data.all (fun r =>
    match r.lookupV c with
    | some (.str _) => false
    | _ => true)
  && data.any (fun r =>
    match r.lookupV c with
    | some (.num _) => true
    | _ => false)

def numericColumns (data : List Record) : List String :=
  (dfColumns data).filter (isNumericColumn data)

/-- The date name substrings of the visualization engine (note: no `day`,
no `week`, unlike the classifier's list). -/
def vizDateTerms : List String := ["date", "month", "year", "quarter", "period"]

/-- The category name substrings of the visualization engine (note: no
`region`, no `country`, unlike the classifier's list; `type` is present). -/
def vizCategoryTerms : List String := ["category", "type", "segment", "department", "division", "product"]

def vizDateColumnsOf (cols : List String) : List String :=
  cols.filter (fun c => vizDateTerms.any (fun t => containsSub (pyLower c) t))

def vizCategoryColumnsOf (cols : List String) : List String :=
  cols.filter (fun c => vizCategoryTerms.any (fun t => containsSub (pyLower c) t))

/-- Value of a numeric column in one row, `none` for missing / `None`. -/
def colValue (r : Record) (c : String) : Option PyNum :=
  match r.lookupV c with
  | some (.num q) => some q
  | _ => none

/-- All actual numbers of a column. -/
def colNums (data : List Record) (c : String) : List PyNum :=
  data.filterMap (fun r => colValue r c)

/-- Distinct non-missing key values of a column, in first-appearance order
(`groupby` keys; pandas drops `NaN` keys). -/
def groupKeys (data : List Record) (c : String) : List Value :=
  data.foldl
    (fun acc r =>
      match r.lookupV c with
      | some v => if v.isNull || acc.any (fun w => w.eqV v) then acc else acc ++ [v]
      | none => acc)
    []

/-- Rows of the group with key `k`. -/
def groupRows (data : List Record) (c : String) (k : Value) : List Record :=
  data.filter (fun r =>
    match r.lookupV c with
    | some v => v.eqV k
    | none => false)

/-- Pandas `groupby(c)[target].mean()` for one group: pandas skips `NaN` and gives
`NaN` (here `none`) for an empty group. -/
def groupMean (data : List Record) (c : String) (k : Value) (target : String) : Option PyNum :=
  let vs := (groupRows data c k).filterMap (fun r => colValue r target)
  if vs.isEmpty then none else some (PyNum.mean vs)

/-- Pandas `groupby(c)[target].sum()` for one group: pandas sums with default 0. -/
def groupSum (data : List Record) (c : String) (k : Value) (target : String) : PyNum :=
  PyNum.sum ((groupRows data c k).filterMap (fun r => colValue r target))

/-- One data series of a chart: a value list (with `none` for `NaN`) or, for
the scatter chart, two parallel coordinate lists. -/
inductive SeriesData where
  | vals (l : List (Option PyNum))
  | pair (xs ys : List (Option PyNum))
  deriving DecidableEq

structure Dataset where
  label : String
  data : SeriesData
  deriving DecidableEq

structure ChartData where
  ctype : String
  title : String
  labels : List String
  datasets : List Dataset
  description : String
  deriving DecidableEq

/-- Function `create_time_series_chart`: first date-like column, up to three numeric
columns, one series per numeric column sharing the group labels. -/
def createTimeSeriesChart (data : List Record) : Option ChartData :=
  match vizDateColumnsOf (dfColumns data), numericColumns data with
  | dateCol :: _, ncol :: ncols =>
    let sel := (ncol :: ncols).take 3
    let keys := groupKeys data dateCol
    let joined := String.intercalate ", " sel
    some
      { ctype := "line"
        title := "Time Series Analysis"
        labels := keys.map pyStr
        datasets := sel.map (fun c => ⟨c, .vals (keys.map (fun k => groupMean data dateCol k c))⟩)
        description := s!"This chart shows the trend of {joined} over time." }
  | _, _ => none

/-- Sum-aggregated `(key, sum)` pairs of a category column, sorted descending
by the sum (stable). -/
def sortedSums (data : List Record) (catCol numCol : String) : List (Value × PyNum) :=
  sSort (fun a b => b.2.leB a.2)
    ((groupKeys data catCol).map (fun k => (k, groupSum data catCol k numCol)))

/-- Function `create_category_comparison_chart`: first category-like column, first
numeric column, descending sums capped at 10. -/
def createCategoryComparisonChart (data : List Record) : Option ChartData :=
  match vizCategoryColumnsOf (dfColumns data), numericColumns data with
  | catCol :: _, numCol :: _ =>
    let grouped := sortedSums data catCol numCol
    let grouped := if grouped.length > 10 then grouped.take 10 else grouped
    some
      { ctype := "bar"
        title := s!"{numCol} by {catCol}"
        labels := grouped.map (fun p => pyStr p.1)
        datasets := [⟨numCol, .vals (grouped.map (fun p => some p.2))⟩]
        description := s!"This chart compares {numCol} across different {catCol} categories." }
  | _, _ => none

/-- The bin edges computed by `pd.cut(col, bins=n, include_lowest=True)`:
linspace over the observed min/max, with the pandas end-point adjustments
(0.1% widening of the degenerate range, 0.1%-of-range lowering of the first
edge otherwise). -/
def binEdges (vs : List PyNum) (n : Nat) : List PyNum :=
  let mn := PyNum.listMin vs
  let mx := PyNum.listMax vs
  if mn.eqB mx then
    let mn' := if mn.eqB 0 then mn - ⟨1, 1000⟩ else mn - PyNum.mul ⟨1, 1000⟩ mn.absV
    let mx' := if mx.eqB 0 then mx + ⟨1, 1000⟩ else mx + PyNum.mul ⟨1, 1000⟩ mx.absV
    (List.range (n + 1)).map (fun i =>
      mn' + PyNum.div (PyNum.mul (mx' - mn') ⟨(i : Int), 1⟩) ⟨(n : Int), 1⟩)
  else
    (List.range (n + 1)).map (fun i =>
      let e := mn + PyNum.div (PyNum.mul (mx - mn) ⟨(i : Int), 1⟩) ⟨(n : Int), 1⟩
      if i = 0 then e - PyNum.mul (mx - mn) ⟨1, 1000⟩ else e)

/-- Membership of a value in bin `i` (right-closed; the first bin also
left-closed because of `include_lowest`). -/
def inBin (edges : List PyNum) (i : Nat) (v : PyNum) : Bool :=
  let lo := edges.getD i 0
  let hi := edges.getD (i + 1) 0
  (if i = 0 then lo.leB v else lo.ltB v) && v.leB hi

/-- Histogram counts of `pd.cut(...).value_counts().sort_index()`: one count
per bin (a zero-count bin is still a category). -/
def histCounts (edges : List PyNum) (nBins : Nat) (vs : List PyNum) : List (Option PyNum) :=
  (List.range nBins).map (fun i => some ⟨((vs.filter (inBin edges i)).length : Int), 1⟩)

/-- Function `create_distribution_chart`: needs two numeric columns; bins the first
into `min(10, n // 5)` (or 5) equal-width bins and reuses the identical
edges for the second. -/
def createDistributionChart (data : List Record) : Option ChartData :=
  match numericColumns data with
  | c1 :: c2 :: _ =>
    let nBins := if data.length > 10 then min 10 (data.length / 5) else 5
    let vs1 := colNums data c1
    if vs1.isEmpty then none
    else
      let edges := binEdges vs1 nBins
      let labels := (List.range nBins).map (fun i =>
        s!"{fmt1 (edges.getD i 0)}-{fmt1 (edges.getD (i + 1) 0)}")
      some
        { ctype := "bar"
          title := "Distribution Comparison"
          labels := labels
          datasets := [⟨c1, .vals (histCounts edges nBins vs1)⟩,
                       ⟨c2, .vals (histCounts edges nBins (colNums data c2))⟩]
          description := s!"This chart shows the distribution of {c1} and {c2}." }
  | _ => none

/-- Function `create_composition_chart`: descending sums; above 8 categories keep the
top 7 and fold the rest into a synthetic "Other" slice. -/
def createCompositionChart (data : List Record) : Option ChartData :=
  match vizCategoryColumnsOf (dfColumns data), numericColumns data with
  | catCol :: _, numCol :: _ =>
    let grouped := sortedSums data catCol numCol
    let grouped :=
      if grouped.length > 8 then
        grouped.take 7 ++ [(Value.str "Other", PyNum.sum ((grouped.drop 7).map Prod.snd))]
      else grouped
    some
      { ctype := "pie"
        title := s!"Composition of {numCol} by {catCol}"
        labels := grouped.map (fun p => pyStr p.1)
        datasets := [⟨numCol, .vals (grouped.map (fun p => some p.2))⟩]
        description := s!"This chart shows the proportion of {numCol} by different {catCol} categories." }
  | _, _ => none

/-- Function `create_correlation_chart`: scatter of the first two numeric columns,
full column lists (length = row count). -/
def createCorrelationChart (data : List Record) : Option ChartData :=
  match numericColumns data with
  | xCol :: yCol :: _ =>
    some
      { ctype := "scatter"
        title := s!"Correlation: {xCol} vs {yCol}"
        labels := [xCol, yCol]
        datasets := [⟨"Data Points", .pair (data.map (fun r => colValue r xCol)) (data.map (fun r => colValue r yCol))⟩]
        description := s!"This scatter plot shows the relationship between {xCol} and {yCol}." }
  | _ => none

/-- Function `create_visualizations`: the four generators in order, then the
correlation chart when fewer than two charts were produced. -/
def createVisualizations (data : List Record) : List ChartData :=
  if data.isEmpty then []
  else
    let base := (createTimeSeriesChart data).toList ++ (createCategoryComparisonChart data).toList
             ++ (createDistributionChart data).toList ++ (createCompositionChart data).toList
    if base.length < 2 then base ++ (createCorrelationChart data).toList else base

/-- The ChartSpec length invariant of the specification: every non-scatter
series has as many values as the chart has x-labels; a scatter series is a
pair of coordinate lists of equal length. -/
def seriesOk (isScatter : Bool) (labelCount : Nat) (d : Dataset) : Bool :=
  match d.data with
  | .vals l => !isScatter && l.length == labelCount
  | .pair xs ys => isScatter && xs.length == ys.length

def chartInvariant (c : ChartData) : Bool :=
  c.datasets.all (seriesOk (c.ctype == "scatter") c.labels.length)

/-! ### Concrete inputs used by the claims -/

/-- The three-record end-to-end example of the specification (raw, before
cleaning: the revenue values are digit strings). -/
def rawC2 : List Record :=
  [[("date", .str "2023-01"), ("category", .str "A"), ("revenue", .str "100")],
   [("date", .str "2023-02"), ("category", .str "A"), ("revenue", .str "150")],
   [("date", .str "2023-03"), ("category", .str "A"), ("revenue", .str "90")]]

def processedC2 : List Record := detectFinancialStructure (cleanData rawC2)

def analysisC2 : List String := analyzeData (.ofList (toElts processedC2))

/-- A list whose single element is not a dict (e.g. `[1]`). -/
def c1BadList : List Elt := [.nondict]

/-- Five records where `a` is numeric in record 0 and in 4 of 5 records
(coverage 0.8, so `a` is confirmed numeric), but whose fifth value `"abc"`
makes `float` raise in the statistical value collection — which sits outside
every `try` except the outer one of `analyze_data`. -/
def c1FloatFail : List Elt :=
  toElts [[("a", .num 1)], [("a", .num 1)], [("a", .num 1)], [("a", .num 1)], [("a", .str "abc")]]

/-- A single-record input producing zero insights ('a' is numeric but has
fewer than 3 values). -/
def tinyData : List Elt := toElts [[("a", .num 1)]]

/-- Candidate fields: keys of the first record whose value passes the
numeric test. -/
def candidateFields (r : Record) : List String :=
  (r.filter (fun kv => isNumericish kv.2)).map Prod.fst

/-- Number of records in which the field is present with a numeric-typed
value. -/
def numericCount (data : List Record) (f : String) : Nat :=
  (data.filter (fun r => (r.lookupV f).any isNumericish)).length

/-- The classification of `identify_numeric_fields` on a list of records,
as a pure function. -/
def numericFieldsR (data : List Record) : List String :=
  match data with
  | [] => []
  | r :: _ => (candidateFields r).filter (fun f => coverageOk (numericCount data f) data.length)

/-- The number of canonical targets whose substring lists match some field
name of the first record — the quantity the claim counts ("canonical targets
that find a matching field name").  The code instead counts the distinct
original keys claimed, which can be smaller when two targets claim the same
key. -/
def countMatchedTargets (data : List Record) : Nat :=
  financialFields.countP (fun tf =>
    match data with
    | [] => false
    | sample :: _ => (sample.map Prod.fst).any (fun key => tf.2.any (fun n => containsSub (pyLower key) n)))

/-- A record whose single matchable name `date_category` is claimed by both
the `date` target and the `category` target (the latter overwriting the
former), so two canonical targets match but `field_mapping` has one entry. -/
def c4Overlap : List Record := [[("date_category", .str "x"), ("foo", .num 1)]]

/-- A first record with exactly one matchable canonical field. -/
def c4OneField : List Record := [[("revenue", .num 5), ("foo", .num 1)]]

/-- A first record with two matchable canonical fields on distinct keys. -/
def c4TwoFields : List Record := [[("sales_total", .num 5), ("period", .str "Q1")]]

/-- Record set with a `weekday` and a `region` column: both are classified by
the field classifier (substrings `day` and `region`), neither is a candidate
for the visualization engine. -/
def c5Data : List Record := [[("weekday", .str "Mon"), ("region", .str "East")]]

/-- The nine-category record set of the claim, with distinct positive sums. -/
def c7Data : List Record :=
  [[("category", .str "c1"), ("sales", .num 90)],
   [("category", .str "c2"), ("sales", .num 80)],
   [("category", .str "c3"), ("sales", .num 70)],
   [("category", .str "c4"), ("sales", .num 60)],
   [("category", .str "c5"), ("sales", .num 50)],
   [("category", .str "c6"), ("sales", .num 40)],
   [("category", .str "c7"), ("sales", .num 30)],
   [("category", .str "c8"), ("sales", .num 20)],
   [("category", .str "c9"), ("sales", .num 10)]]

/-- One cleaned-key character step. -/
def cleanChar (c : Char) : Char := spaceToUnderscore (pyLowerChar c)

/-- The cleaned key/value pair. -/
def cleanPair (kv : String × Value) : String × Value := (cleanKey kv.1, cleanValue kv.2)

/-- Building a dict by repeated assignment. -/
def buildRec (l : List (String × Value)) : Record :=
  l.foldl (fun acc kv => recUpsert kv.1 kv.2 acc) []

/-! ### C1 -/

/-- C1, counterexample.  The claim says an input that is "not a list of
records" returns exactly `["Insufficient data for analysis."]`, and that any
internal error in one field is swallowed with the insights produced so far
returned.  Both fail: a list containing a non-record returns the error
string, and a `float` coercion failure in the statistical value collection
(field `a` of `c1FloatFail`) aborts the whole analysis with the error string
instead of returning the insights produced so far (which were none, so the
claim would demand the recommendations fallback). -/
theorem c1_boundary_counterexample :
    analyzeData (.ofList c1BadList) = [analysisErrorMsg]
    ∧ [analysisErrorMsg] ≠ [insufficientMsg]
    ∧ analyzeData (.ofList c1FloatFail) = [analysisErrorMsg]
    ∧ [analysisErrorMsg] ≠ dedup [] ++ recommendations := by
  refine ⟨rfl, by decide, rfl, by decide⟩

/-- C1, amended: `analyze_data` never raises (it is a total function here);
a non-list or empty-list input returns exactly the insufficient-data string;
an error escaping the gathering phase (possible only from field
identification or the statistical value collection, everything else is
swallowed per field) yields the single error string, discarding any insight
produced so far; otherwise the deduplicated insights (with the
recommendations fallback below 3) are returned. -/
theorem c1_amended_soft_boundary :
    analyzeData .notList = [insufficientMsg]
    ∧ analyzeData (.ofList []) = [insufficientMsg]
    ∧ (∀ (data : List Elt) (e : PyErr), data ≠ [] → gatherInsights data = .error e →
        analyzeData (.ofList data) = [analysisErrorMsg])
    ∧ (∀ (data : List Elt) (ins : List String), data ≠ [] → gatherInsights data = .ok ins →
        analyzeData (.ofList data) =
          (if (dedup ins).length < 3 then dedup ins ++ recommendations else dedup ins)) := by
  refine ⟨rfl, rfl, ?_, ?_⟩
  · intro data e hne hok
    simp [analyzeData, hne, hok]
  · intro data ins hne hok
    simp [analyzeData, hne, hok]

/-- Witness for `c1_amended_soft_boundary` at concrete inputs. -/
theorem c1_amended_soft_boundary_witness :
    analyzeData (.ofList c1BadList) = [analysisErrorMsg]
    ∧ analyzeData (.ofList tinyData) =
        (if (dedup []).length < 3 then dedup [] ++ recommendations else dedup []) := by
  constructor
  · exact c1_amended_soft_boundary.2.2.1 c1BadList "AttributeError / TypeError: not a dict"
      (by decide) (by rfl)
  · exact c1_amended_soft_boundary.2.2.2 tinyData [] (by decide) (by rfl)

/-! ### C2 -/

/-- C2: the end-to-end example.  After cleaning and the financial remap,
`revenue` is the (only) numeric field and `date` the (only) date field; the
analysis contains the exact total and average strings; and the trend insight
is the "stable" form (percent change exactly -10 under the strict
`>10 / < -10` bounds), no increasing/decreasing trend form appearing. -/
theorem c2_end_to_end_example :
    identifyNumericFields (toElts processedC2) = .ok ["revenue"]
    ∧ identifyDateFields (toElts processedC2) = .ok ["date"]
    ∧ "The total revenue is 340.00." ∈ analysisC2
    ∧ "The average revenue is 113.33." ∈ analysisC2
    ∧ "The revenue remains relatively stable over the analyzed period (change: -10.0%)." ∈ analysisC2
    ∧ analysisC2.all (fun s => !(containsSub s "decreasing trend") && !(containsSub s "increasing trend")) = true := by
  refine ⟨rfl, rfl, by decide, by decide, by decide, by decide⟩

/-! ### C6 -/

/-- C6: whenever the gathering phase succeeds with fewer than 3 unique
insight strings after deduplication, `analyze_data` returns them followed by
exactly the 5 fixed recommendation strings; the result length is the unique
insight count plus 5. -/
theorem c6_recommendation_fallback (data : List Elt) (ins : List String)
    (hne : data ≠ []) (hok : gatherInsights data = .ok ins)
    (hlt : (dedup ins).length < 3) :
    analyzeData (.ofList data) = dedup ins ++ recommendations
    ∧ (analyzeData (.ofList data)).length = (dedup ins).length + 5
    ∧ recommendations.length = 5 := by
  have h1 : analyzeData (.ofList data) = dedup ins ++ recommendations := by
    simp [analyzeData, hne, hok, hlt]
  refine ⟨h1, ?_, rfl⟩
  rw [h1]
  simp [recommendations]

/-- Witness for `c6_recommendation_fallback`: a record set yielding 0 unique
insights returns exactly 0 + 5 strings. -/
theorem c6_recommendation_fallback_witness :
    analyzeData (.ofList tinyData) = dedup [] ++ recommendations
    ∧ (analyzeData (.ofList tinyData)).length = (dedup []).length + 5
    ∧ recommendations.length = 5 :=
  c6_recommendation_fallback tinyData [] (by decide) (by rfl) (by decide)

/-! ### C10 -/

/-- C10: for every input whatsoever — a non-list, an empty list, a list of
records or non-records, inputs raising internal exceptions — `analyze_data`
returns a non-empty list of strings. -/
theorem c10_never_empty (input : PyInput) : analyzeData input ≠ [] := by
  cases input with
  | notList => simp [analyzeData]
  | ofList data =>
    by_cases he : data.isEmpty
    · simp [analyzeData, he]
    · simp only [analyzeData, he, if_neg]
      cases hg : gatherInsights data with
      | error e => simp
      | ok ins =>
        by_cases hl : (dedup ins).length < 3
        · simp [hl, recommendations]
        · intro hnil
          simp [hg, hl] at hnil
          rw [hnil] at hl
          simp at hl

/-! ### C3 -/

theorem pyBind_ok {α β : Type} (a : α) (f : α → Except PyErr β) :
    (do let x ← (Except.ok a : Except PyErr α); f x) = f a := rfl

theorem pyPure_ok {α : Type} (a : α) : (pure a : Except PyErr α) = .ok a := rfl

theorem eltFieldNumeric_obj (f : String) (r : Record) :
    eltFieldNumeric f (.obj r) = .ok ((r.lookupV f).any isNumericish) := by
  cases h : r.lookupV f <;> simp [eltFieldNumeric, asRecord, pyBind_ok, pyPure_ok, h, Option.any]

theorem countNumericIn_toElts (f : String) (data : List Record) :
    countNumericIn f (toElts data) = .ok (numericCount data f) := by
  induction data with
  | nil => rfl
  | cons r rest ih =>
    simp only [toElts] at ih ⊢
    simp only [List.map_cons, countNumericIn, eltFieldNumeric_obj, pyBind_ok, ih, pyPure_ok]
    simp only [numericCount, List.filter_cons]
    by_cases h : (r.lookupV f).any isNumericish = true
    · simp [h, Nat.add_comm]
    · simp [h]

theorem collectNumericFields_toElts (data : List Record) (total : Nat) (fs : List String) :
    collectNumericFields (toElts data) total fs =
      .ok (fs.filter (fun f => coverageOk (numericCount data f) total)) := by
  induction fs with
  | nil => rfl
  | cons f fs ih =>
    simp only [collectNumericFields, countNumericIn_toElts, ih, List.filter_cons, pyBind_ok,
      pyPure_ok]

theorem identifyNumericFields_toElts (data : List Record) :
    identifyNumericFields (toElts data) = .ok (numericFieldsR data) := by
  cases data with
  | nil => rfl
  | cons r rest =>
    have h := collectNumericFields_toElts (r :: rest) (r :: rest).length (candidateFields r)
    simp only [toElts, List.map_cons, List.length_cons] at h ⊢
    simp only [identifyNumericFields, asRecord, pyBind_ok, numericFieldsR, List.length_cons,
      List.length_map]
    exact h

/-- The `>= 0.8` float comparison is the inclusive 80% boundary in exact
arithmetic. -/
theorem coverageOk_iff (cnt total : Nat) (h : 0 < total) :
    coverageOk cnt total = true ↔ 4 * total ≤ 5 * cnt := by
  have hpos : (0 : Int) < (total : Int) := by exact_mod_cast h
  simp only [coverageOk, PyNum.div, PyNum.inv, PyNum.mul, PyNum.leB]
  rw [if_pos hpos]
  simp only [decide_eq_true_eq]
  constructor <;> intro hle <;> omega

theorem mem_candidateFields (r : Record) (f : String) :
    f ∈ candidateFields r ↔ ∃ v, (f, v) ∈ r ∧ isNumericish v = true := by
  simp only [candidateFields, List.mem_map, List.mem_filter]
  constructor
  · rintro ⟨⟨k, v⟩, ⟨hm, hn⟩, hk⟩
    obtain rfl : k = f := hk
    exact ⟨v, hm, hn⟩
  · rintro ⟨v, hm, hn⟩
    exact ⟨(f, v), ⟨hm, hn⟩, rfl⟩

/-- C3: a field is classified Numeric iff its value in the first record
passes the number-or-digit-string test and the field is present with a
numeric-typed value in at least 80% of all records — the boundary inclusive
(8 of 10 classified, 7 of 10 not) — and an empty record set yields no numeric
fields. -/
theorem c3_numeric_classification :
    (∀ data : List Record, identifyNumericFields (toElts data) = .ok (numericFieldsR data))
    ∧ (∀ (data : List Record) (f : String),
        f ∈ numericFieldsR data ↔
          data ≠ []
          ∧ (∃ v, (f, v) ∈ data.headD [] ∧ isNumericish v = true)
          ∧ 4 * data.length ≤ 5 * numericCount data f)
    ∧ numericFieldsR
        [[("v", .num 1)], [("v", .num 1)], [("v", .num 1)], [("v", .num 1)],
         [("v", .num 1)], [("v", .num 1)], [("v", .num 1)], [("v", .num 1)],
         [("v", .str "x")], [("v", .str "x")]] = ["v"]
    ∧ numericFieldsR
        [[("v", .num 1)], [("v", .num 1)], [("v", .num 1)], [("v", .num 1)],
         [("v", .num 1)], [("v", .num 1)], [("v", .num 1)],
         [("v", .str "x")], [("v", .str "x")], [("v", .str "x")]] = []
    ∧ numericFieldsR [] = [] := by
  refine ⟨identifyNumericFields_toElts, ?_, by decide, by decide, rfl⟩
  intro data f
  cases data with
  | nil => simp [numericFieldsR]
  | cons r rest =>
    simp only [numericFieldsR, List.mem_filter, mem_candidateFields, List.headD_cons]
    rw [coverageOk_iff _ _ (by simp)]
    constructor
    · rintro ⟨hc, hcov⟩
      exact ⟨by simp, hc, hcov⟩
    · rintro ⟨_, hc, hcov⟩
      exact ⟨hc, hcov⟩

/-! ### C4 -/

/-- C4, counterexample: on `c4Overlap` two canonical targets (date and
category) find a matching field name, yet the record set is returned
unchanged — no canonical key appears in the output — because the two targets
claimed the same original key and the dict overwrite left a single mapping
entry, below the `len(field_mapping) < 2` threshold. -/
theorem c4_overlap_counterexample :
    countMatchedTargets c4Overlap = 2
    ∧ detectFinancialStructure c4Overlap = c4Overlap
    ∧ ((detectFinancialStructure c4Overlap).headD []).map Prod.fst = ["date_category", "foo"]
    ∧ ¬ ("date" ∈ ((detectFinancialStructure c4Overlap).headD []).map Prod.fst)
    ∧ ¬ ("category" ∈ ((detectFinancialStructure c4Overlap).headD []).map Prod.fst) := by
  refine ⟨by decide, by decide, by decide, by decide, by decide⟩

theorem mapUpsert_length_le (k v : String) (m : List (String × String)) :
    (mapUpsert k v m).length ≤ m.length + 1 := by
  induction m with
  | nil => simp [mapUpsert]
  | cons p rest ih =>
    simp only [mapUpsert]
    by_cases h : p.1 = k
    · simp [h]
    · rw [if_neg h]
      simp only [List.length_cons]
      omega

theorem fieldMapping_foldl_length_le (sample : Record) (tfs : List (String × List String))
    (m : List (String × String)) :
    (tfs.foldl
      (fun m tf =>
        match firstMatchingKey sample tf.2 with
        | some key => mapUpsert key tf.1 m
        | none => m)
      m).length
      ≤ m.length + tfs.countP (fun tf => (firstMatchingKey sample tf.2).isSome) := by
  induction tfs generalizing m with
  | nil => simp
  | cons tf rest ih =>
    simp only [List.foldl_cons, List.countP_cons]
    cases h : firstMatchingKey sample tf.2 with
    | none => simpa [h] using ih m
    | some key =>
      have h1 := ih (mapUpsert key tf.1 m)
      have h2 := mapUpsert_length_le key tf.1 m
      simp [h]
      omega

/-- The `field_mapping` dict never has more entries than there are canonical
targets that matched. -/
theorem fieldMapping_length_le (sample : Record) :
    (fieldMapping sample).length ≤ countMatchedTargets (sample :: []) := by
  have h := fieldMapping_foldl_length_le sample financialFields []
  simp only [List.length_nil, Nat.zero_add] at h
  refine h.trans ?_
  apply Nat.le_of_eq
  apply List.countP_congr
  intro tf _
  simp only [countMatchedTargets, firstMatchingKey, List.find?_isSome, List.any_eq_true]

/-- C4, amended: the remap decision is taken on the number of DISTINCT
original keys claimed in `field_mapping` (a later target overwrites an
earlier target's claim on the same key).  Below 2 entries the record set is
returned unchanged; with 2 or more, every record is rebuilt as the mapped
canonical keys followed by every unclaimed original field.  In particular a
first record with exactly one matchable canonical field is never remapped,
and one with two matchable canonical fields on distinct keys always is. -/
theorem c4_amended_remap_threshold :
    (∀ (data : List Record) (sample : Record) (rest : List Record), data = sample :: rest →
      (fieldMapping sample).length < 2 → detectFinancialStructure data = data)
    ∧ (∀ (data : List Record) (sample : Record) (rest : List Record), data = sample :: rest →
      2 ≤ (fieldMapping sample).length →
      detectFinancialStructure data = data.map (normalizeItem (fieldMapping sample)))
    ∧ (∀ (data : List Record) (sample : Record) (rest : List Record), data = sample :: rest →
      countMatchedTargets [sample] ≤ 1 → detectFinancialStructure data = data)
    ∧ detectFinancialStructure c4OneField = c4OneField
    ∧ detectFinancialStructure c4TwoFields = [[("revenue", .num 5), ("date", .str "Q1")]] := by
  refine ⟨?_, ?_, ?_, by decide, by decide⟩
  · intro data sample rest hd hlt
    subst hd
    simp [detectFinancialStructure, hlt]
  · intro data sample rest hd hge
    subst hd
    simp [detectFinancialStructure, Nat.not_lt.mpr hge]
  · intro data sample rest hd hle
    subst hd
    have hb := fieldMapping_length_le sample
    have h : (fieldMapping sample).length < 2 := by omega
    simp [detectFinancialStructure, h]

/-- Witness for `c4_amended_remap_threshold` at concrete inputs. -/
theorem c4_amended_remap_threshold_witness :
    detectFinancialStructure c4OneField = c4OneField
    ∧ detectFinancialStructure c4TwoFields =
        c4TwoFields.map (normalizeItem (fieldMapping [("sales_total", .num 5), ("period", .str "Q1")])) := by
  constructor
  · exact c4_amended_remap_threshold.1 c4OneField [("revenue", .num 5), ("foo", .num 1)] []
      (by rfl) (by decide)
  · exact c4_amended_remap_threshold.2.1 c4TwoFields [("sales_total", .num 5), ("period", .str "Q1")] []
      (by rfl) (by decide)

/-! ### C5 -/

/-- C5, counterexample: the visualization engine's candidate columns are NOT
the columns matching the classifier's substring lists — its date list lacks
`day`/`week` and its category list lacks `region`/`country` (and adds none of
its own beyond the classifier's).  On a `weekday`/`region` record set the
classifier-side filters keep both columns while the visualizer keeps
neither. -/
theorem c5_candidate_mismatch_counterexample :
    vizDateColumnsOf (dfColumns c5Data) = []
    ∧ (dfColumns c5Data).filter (keyMatchesAny dateIndicators) = ["weekday"]
    ∧ vizDateColumnsOf (dfColumns c5Data) ≠ (dfColumns c5Data).filter (keyMatchesAny dateIndicators)
    ∧ vizCategoryColumnsOf (dfColumns c5Data) = []
    ∧ (dfColumns c5Data).filter (keyMatchesAny categoryIndicators) = ["region"]
    ∧ vizCategoryColumnsOf (dfColumns c5Data) ≠ (dfColumns c5Data).filter (keyMatchesAny categoryIndicators) := by
  refine ⟨by decide, by decide, by decide, by decide, by decide, by decide⟩

theorem any_mono_of_sub (ts us : List String) (f : String → Bool)
    (hsub : ∀ t ∈ ts, t ∈ us) (h : ts.any f = true) : us.any f = true := by
  rw [List.any_eq_true] at h ⊢
  obtain ⟨t, ht, hf⟩ := h
  exact ⟨t, hsub t ht, hf⟩

/-- C5, amended: the visualization engine scans ALL column names, but with
its own shorter substring lists (`{date, month, year, quarter, period}` and
`{category, type, segment, department, division, product}`), which are
strict subsets of the classifier's lists: every visualizer candidate is a
classifier-substring match, but not conversely (`weekday`, `region`). -/
theorem c5_amended_candidate_subsets :
    (∀ (cols : List String) (c : String), c ∈ vizDateColumnsOf cols →
      c ∈ cols.filter (keyMatchesAny dateIndicators))
    ∧ (∀ (cols : List String) (c : String), c ∈ vizCategoryColumnsOf cols →
      c ∈ cols.filter (keyMatchesAny categoryIndicators))
    ∧ (∀ t ∈ vizDateTerms, t ∈ dateIndicators)
    ∧ (∀ t ∈ vizCategoryTerms, t ∈ categoryIndicators)
    ∧ vizDateColumnsOf (dfColumns c5Data) ≠ (dfColumns c5Data).filter (keyMatchesAny dateIndicators)
    ∧ vizCategoryColumnsOf (dfColumns c5Data) ≠ (dfColumns c5Data).filter (keyMatchesAny categoryIndicators) := by
  refine ⟨?_, ?_, by decide, by decide, by decide, by decide⟩
  · intro cols c hc
    rw [vizDateColumnsOf, List.mem_filter] at hc
    rw [List.mem_filter]
    exact ⟨hc.1, any_mono_of_sub _ _ _ (by decide) hc.2⟩
  · intro cols c hc
    rw [vizCategoryColumnsOf, List.mem_filter] at hc
    rw [List.mem_filter]
    exact ⟨hc.1, any_mono_of_sub _ _ _ (by decide) hc.2⟩

/-- Witness for `c5_amended_candidate_subsets` at a concrete column. -/
theorem c5_amended_candidate_subsets_witness :
    "sale_date" ∈ (["sale_date", "product"].filter (keyMatchesAny dateIndicators))
    ∧ "product" ∈ (["sale_date", "product"].filter (keyMatchesAny categoryIndicators)) := by
  constructor
  · exact c5_amended_candidate_subsets.1 ["sale_date", "product"] "sale_date" (by decide)
  · exact c5_amended_candidate_subsets.2.1 ["sale_date", "product"] "product" (by decide)

/-! ### C7 -/

/-- C7: when the composition pie chart is built from more than 8 distinct
categories, the output keeps the top 7 by descending sum and folds the rest
into one synthetic "Other" slice worth the folded sums — exactly 8 slices,
the last labeled "Other". -/
theorem c7_composition_other_folding (data : List Record) (catCol numCol : String)
    (cs ns : List String)
    (h1 : vizCategoryColumnsOf (dfColumns data) = catCol :: cs)
    (h2 : numericColumns data = numCol :: ns)
    (h3 : 8 < (sortedSums data catCol numCol).length) :
    ∃ c, createCompositionChart data = some c
      ∧ c.labels = ((sortedSums data catCol numCol).take 7).map (fun p => pyStr p.1) ++ ["Other"]
      ∧ c.labels.length = 8
      ∧ c.labels.getLast? = some "Other"
      ∧ c.datasets = [⟨numCol, .vals (((sortedSums data catCol numCol).take 7).map (fun p => some p.2)
          ++ [some (PyNum.sum (((sortedSums data catCol numCol).drop 7).map Prod.snd))])⟩] := by
  have hif : (if (sortedSums data catCol numCol).length > 8 then
      (sortedSums data catCol numCol).take 7
        ++ [(Value.str "Other", PyNum.sum (((sortedSums data catCol numCol).drop 7).map Prod.snd))]
    else sortedSums data catCol numCol) =
      (sortedSums data catCol numCol).take 7
        ++ [(Value.str "Other", PyNum.sum (((sortedSums data catCol numCol).drop 7).map Prod.snd))] :=
    if_pos h3
  have hc : createCompositionChart data = some
      { ctype := "pie"
        title := s!"Composition of {numCol} by {catCol}"
        labels := (((sortedSums data catCol numCol).take 7
            ++ [(Value.str "Other", PyNum.sum (((sortedSums data catCol numCol).drop 7).map Prod.snd))]).map
              (fun p => pyStr p.1))
        datasets := [⟨numCol, .vals (((sortedSums data catCol numCol).take 7
            ++ [(Value.str "Other", PyNum.sum (((sortedSums data catCol numCol).drop 7).map Prod.snd))]).map
              (fun p => some p.2))⟩]
        description := s!"This chart shows the proportion of {numCol} by different {catCol} categories." } := by
    simp only [createCompositionChart, h1, h2, hif]
  have hlen : ((sortedSums data catCol numCol).take 7).length = 7 := by
    simp [List.length_take]
    omega
  refine ⟨_, hc, ?_, ?_, ?_, ?_⟩
  · simp [pyStr]
  · simp only [List.map_append, List.length_append, List.length_map, hlen, List.map_cons,
      List.map_nil, List.length_cons, List.length_nil]
  · simp only [List.map_append, List.map_cons, List.map_nil]
    exact List.getLast?_concat _
  · simp

/-- Witness for `c7_composition_other_folding` on nine categories. -/
theorem c7_composition_other_folding_witness :
    ∃ c, createCompositionChart c7Data = some c
      ∧ c.labels = ((sortedSums c7Data "category" "sales").take 7).map (fun p => pyStr p.1) ++ ["Other"]
      ∧ c.labels.length = 8
      ∧ c.labels.getLast? = some "Other"
      ∧ c.datasets = [⟨"sales", .vals (((sortedSums c7Data "category" "sales").take 7).map (fun p => some p.2)
          ++ [some (PyNum.sum (((sortedSums c7Data "category" "sales").drop 7).map Prod.snd))])⟩] :=
  c7_composition_other_folding c7Data "category" "sales" [] [] (by decide) (by decide) (by decide)

/-! ### C8 -/

theorem timeSeries_invariant (data : List Record) (c : ChartData)
    (h : createTimeSeriesChart data = some c) : chartInvariant c = true := by
  unfold createTimeSeriesChart at h
  split at h
  · injection h with h
    subst h
    simp only [chartInvariant, List.all_eq_true, seriesOk]
    intro x hx
    simp only [List.mem_map] at hx
    obtain ⟨col, _, hcol⟩ := hx
    subst hcol
    simp
  · exact absurd h (by simp)

theorem categoryChart_invariant (data : List Record) (c : ChartData)
    (h : createCategoryComparisonChart data = some c) : chartInvariant c = true := by
  unfold createCategoryComparisonChart at h
  split at h
  · injection h with h
    subst h
    simp [chartInvariant, List.all_eq_true, seriesOk]
  · exact absurd h (by simp)

theorem distributionChart_invariant (data : List Record) (c : ChartData)
    (h : createDistributionChart data = some c) : chartInvariant c = true := by
  unfold createDistributionChart at h
  split at h
  · dsimp only at h
    split at h
    · exact absurd h (by simp)
    · injection h with h
      subst h
      simp [chartInvariant, List.all_eq_true, seriesOk, histCounts]
  · exact absurd h (by simp)

theorem compositionChart_invariant (data : List Record) (c : ChartData)
    (h : createCompositionChart data = some c) : chartInvariant c = true := by
  unfold createCompositionChart at h
  split at h
  · injection h with h
    subst h
    simp [chartInvariant, List.all_eq_true, seriesOk]
  · exact absurd h (by simp)

theorem correlationChart_invariant (data : List Record) (c : ChartData)
    (h : createCorrelationChart data = some c) : chartInvariant c = true := by
  unfold createCorrelationChart at h
  split at h
  · injection h with h
    subst h
    simp [chartInvariant, List.all_eq_true, seriesOk]
  · exact absurd h (by simp)

/-- C8: every chart specification returned by `create_visualizations`
satisfies the ChartSpec invariant — each non-scatter series has exactly as
many values as the chart has x-labels, and the scatter series carries two
coordinate arrays of equal length. -/
theorem c8_chart_length_invariant (data : List Record) (c : ChartData)
    (h : c ∈ createVisualizations data) : chartInvariant c = true := by
  unfold createVisualizations at h
  by_cases he : data.isEmpty
  · simp [he] at h
  · rw [if_neg he] at h
    have hbase : ∀ c', c' ∈ (createTimeSeriesChart data).toList ++ (createCategoryComparisonChart data).toList
        ++ (createDistributionChart data).toList ++ (createCompositionChart data).toList →
        chartInvariant c' = true := by
      intro c' hc'
      simp only [List.mem_append, Option.mem_toList, Option.mem_def] at hc'
      rcases hc' with ((h1 | h2) | h3) | h4
      · exact timeSeries_invariant data c' h1
      · exact categoryChart_invariant data c' h2
      · exact distributionChart_invariant data c' h3
      · exact compositionChart_invariant data c' h4
    dsimp only at h
    split at h
    · rw [List.mem_append] at h
      rcases h with h | h
      · exact hbase c h
      · simp only [Option.mem_toList, Option.mem_def] at h
        exact correlationChart_invariant data c h
    · exact hbase c h

/-- Witness for `c8_chart_length_invariant`: the record set `c5Data`-like
two-category data produces a bar chart and a pie chart; the invariant holds
for the first produced chart. -/
theorem c8_chart_length_invariant_witness :
    chartInvariant ((createVisualizations
      [[("category", .str "A"), ("sales", .num 5)],
       [("category", .str "B"), ("sales", .num 3)]]).headD
        ⟨"scatter", "", [], [], ""⟩) = true :=
  c8_chart_length_invariant
    [[("category", .str "A"), ("sales", .num 5)],
     [("category", .str "B"), ("sales", .num 3)]] _ (by decide)

/-! ### C9 -/

theorem toNat_ofNat_valid (n : Nat) (h : n.isValidChar) : (Char.ofNat n).toNat = n := by
  rw [Char.ofNat, dif_pos h]
  rfl

theorem valid_lower_range (n : Nat) (h1 : 97 ≤ n) (h2 : n ≤ 122) : n.isValidChar :=
  Or.inl (by omega)

theorem pyLowerChar_toNat (c : Char) (h : 65 ≤ c.toNat ∧ c.toNat ≤ 90) :
    (pyLowerChar c).toNat = c.toNat + 32 := by
  rw [pyLowerChar, if_pos h]
  exact toNat_ofNat_valid _ (valid_lower_range _ (by omega) (by omega))

theorem pyLowerChar_idem (c : Char) : pyLowerChar (pyLowerChar c) = pyLowerChar c := by
  by_cases h : 65 ≤ c.toNat ∧ c.toNat ≤ 90
  · have ht := pyLowerChar_toNat c h
    conv_lhs => rw [pyLowerChar]
    rw [if_neg (by omega)]
  · have hc : pyLowerChar c = c := by rw [pyLowerChar, if_neg h]
    rw [hc, hc]

theorem char_eq_iff_toNat (a b : Char) : a = b ↔ a.toNat = b.toNat := by
  constructor
  · intro h; rw [h]
  · intro h
    exact Char.ext (UInt32.ext h)

theorem isWhitespace_eq_toNat (c : Char) :
    c.isWhitespace = (c.toNat == 32 || c.toNat == 9 || c.toNat == 13 || c.toNat == 10) := by
  rw [Char.isWhitespace]
  simp only [char_eq_iff_toNat]
  rfl

theorem pyLowerChar_not_ws (c : Char) (h : c.isWhitespace = false) :
    (pyLowerChar c).isWhitespace = false := by
  by_cases hc : 65 ≤ c.toNat ∧ c.toNat ≤ 90
  · have ht := pyLowerChar_toNat c hc
    rw [isWhitespace_eq_toNat, ht]
    simp only [Bool.or_eq_false_iff, beq_eq_false_iff_ne]
    omega
  · rwa [pyLowerChar, if_neg hc]

theorem spaceToUnderscore_not_ws (c : Char) (h : c.isWhitespace = false) :
    (spaceToUnderscore c).isWhitespace = false := by
  by_cases hc : c = ' '
  · rw [spaceToUnderscore, if_pos hc]
    decide
  · rwa [spaceToUnderscore, if_neg hc]

theorem cleanChar_idem (c : Char) : cleanChar (cleanChar c) = cleanChar c := by
  by_cases h : pyLowerChar c = ' '
  · simp only [cleanChar, h]
    decide
  · simp only [cleanChar, spaceToUnderscore, if_neg h, pyLowerChar_idem, if_neg h]

theorem cleanChar_not_ws (c : Char) (h : c.isWhitespace = false) :
    (cleanChar c).isWhitespace = false :=
  spaceToUnderscore_not_ws _ (pyLowerChar_not_ws _ h)

theorem dropWhile_eq_self_of_head (p : α → Bool) (l : List α)
    (h : ∀ x, l.head? = some x → p x = false) : l.dropWhile p = l := by
  cases l with
  | nil => rfl
  | cons a t =>
    rw [List.dropWhile_cons, if_neg]
    simp [h a rfl]

theorem head?_dropWhile_false (p : α → Bool) (l : List α) :
    ∀ x, (l.dropWhile p).head? = some x → p x = false := by
  induction l with
  | nil => simp
  | cons a t ih =>
    by_cases h : p a
    · rw [List.dropWhile_cons, if_pos h]
      exact ih
    · rw [List.dropWhile_cons, if_neg (by simp [h])]
      intro x hx
      rw [List.head?_cons] at hx
      injection hx with hx
      subst hx
      simp [h]

theorem dropWhile_getLast? (p : α → Bool) (l : List α) :
    l.dropWhile p = [] ∨ (l.dropWhile p).getLast? = l.getLast? := by
  induction l with
  | nil => exact .inl rfl
  | cons a t ih =>
    by_cases h : p a
    · rw [List.dropWhile_cons, if_pos h]
      cases hdt : t.dropWhile p with
      | nil => exact .inl rfl
      | cons b bs =>
        right
        rcases ih with h1 | h2
        · rw [h1] at hdt; cases hdt
        · rw [← hdt, h2]
          have ht : t ≠ [] := by
            intro he
            rw [he] at hdt
            cases hdt
          cases t with
          | nil => cases ht rfl
          | cons c cs => rw [List.getLast?_cons_cons]
    · rw [List.dropWhile_cons, if_neg (by simp [h])]
      exact .inr rfl

theorem trimList_head_not_ws (l : List Char) :
    ∀ x, (trimList l).head? = some x → x.isWhitespace = false := by
  intro x hx
  rw [trimList, List.head?_reverse] at hx
  rcases dropWhile_getLast? Char.isWhitespace (l.dropWhile Char.isWhitespace).reverse with h1 | h2
  · rw [h1] at hx
    cases hx
  · rw [h2, List.getLast?_reverse] at hx
    exact head?_dropWhile_false Char.isWhitespace l x hx

theorem trimList_getLast_not_ws (l : List Char) :
    ∀ x, (trimList l).getLast? = some x → x.isWhitespace = false := by
  intro x hx
  rw [trimList, List.getLast?_reverse] at hx
  exact head?_dropWhile_false Char.isWhitespace _ x hx

theorem trimList_eq_self (l : List Char)
    (h1 : ∀ x, l.head? = some x → x.isWhitespace = false)
    (h2 : ∀ x, l.getLast? = some x → x.isWhitespace = false) :
    trimList l = l := by
  rw [trimList, dropWhile_eq_self_of_head _ _ h1,
    dropWhile_eq_self_of_head _ _ (fun x hx => h2 x (by rwa [List.head?_reverse] at hx)),
    List.reverse_reverse]

theorem cleanKey_data (k : String) :
    cleanKey k = ⟨(trimList k.data).map cleanChar⟩ := by
  simp only [cleanKey, pyUnderscore, pyLower, pyStrip, List.map_map]
  rfl

theorem trimList_map_clean (T : List Char)
    (hh : ∀ x, T.head? = some x → x.isWhitespace = false)
    (hl : ∀ x, T.getLast? = some x → x.isWhitespace = false) :
    trimList (T.map cleanChar) = T.map cleanChar := by
  apply trimList_eq_self
  · intro x hx
    rw [List.head?_map] at hx
    cases hT : T.head? with
    | none => rw [hT] at hx; cases hx
    | some a =>
      rw [hT] at hx
      injection hx with hx
      subst hx
      exact cleanChar_not_ws a (hh a hT)
  · intro x hx
    rw [show (T.map cleanChar).getLast? = (T.map cleanChar).reverse.head? from
        (List.head?_reverse _).symm, ← List.map_reverse, List.head?_map] at hx
    cases hT : T.reverse.head? with
    | none => rw [hT] at hx; cases hx
    | some a =>
      rw [hT] at hx
      injection hx with hx
      subst hx
      rw [List.head?_reverse] at hT
      exact cleanChar_not_ws a (hl a hT)

theorem cleanKey_idem (k : String) : cleanKey (cleanKey k) = cleanKey k := by
  rw [cleanKey_data k, cleanKey_data]
  show String.mk ((trimList ((trimList k.data).map cleanChar)).map cleanChar) = _
  rw [trimList_map_clean _ (trimList_head_not_ws _) (trimList_getLast_not_ws _),
    List.map_map]
  congr 1
  calc ((trimList k.data).map (cleanChar ∘ cleanChar))
      = (trimList k.data).map cleanChar :=
        List.map_congr_left (fun a _ => cleanChar_idem a)

theorem cleanValue_idem (v : Value) : cleanValue (cleanValue v) = cleanValue v := by
  cases v with
  | null => rfl
  | num q => rfl
  | str s =>
    by_cases h : pyDigitCheck s
    · simp [cleanValue, h]
    · simp [cleanValue, h]

theorem cleanPair_idem (kv : String × Value) : cleanPair (cleanPair kv) = cleanPair kv := by
  simp [cleanPair, cleanKey_idem, cleanValue_idem]

theorem cleanItem_eq_buildRec (r : Record) : cleanItem r = buildRec (r.map cleanPair) := by
  rw [cleanItem, buildRec, List.foldl_map]
  rfl

theorem mem_recUpsert (k : String) (v : Value) (r : Record) (kv : String × Value)
    (h : kv ∈ recUpsert k v r) : kv = (k, v) ∨ kv ∈ r := by
  induction r with
  | nil => simpa [recUpsert] using h
  | cons p rest ih =>
    rw [recUpsert] at h
    by_cases hp : p.1 = k
    · rw [if_pos hp] at h
      rcases List.mem_cons.mp h with h1 | h2
      · exact .inl h1
      · exact .inr (List.mem_cons_of_mem _ h2)
    · rw [if_neg hp] at h
      rcases List.mem_cons.mp h with h1 | h2
      · exact .inr (by simp [h1])
      · rcases ih h2 with h3 | h4
        · exact .inl h3
        · exact .inr (List.mem_cons_of_mem _ h4)

theorem recUpsert_keys (k : String) (v : Value) (r : Record) :
    (recUpsert k v r).map Prod.fst =
      if k ∈ r.map Prod.fst then r.map Prod.fst else r.map Prod.fst ++ [k] := by
  induction r with
  | nil => simp [recUpsert]
  | cons p rest ih =>
    rw [recUpsert]
    by_cases hp : p.1 = k
    · rw [if_pos hp]
      simp [hp]
    · rw [if_neg hp]
      by_cases hm : k ∈ rest.map Prod.fst
      · simp only [List.map_cons, ih, if_pos hm]
        rw [if_pos (by simp [hm])]
      · simp only [List.map_cons, ih, if_neg hm]
        rw [if_neg (by
          simp only [List.map_cons, List.mem_cons]
          rintro (h | h)
          · exact hp h.symm
          · exact hm h)]
        simp

theorem recUpsert_of_not_mem (k : String) (v : Value) (r : Record)
    (h : ¬ k ∈ r.map Prod.fst) : recUpsert k v r = r ++ [(k, v)] := by
  induction r with
  | nil => rfl
  | cons p rest ih =>
    rw [recUpsert, if_neg (fun he => h (by simp [he]))]
    rw [ih (fun hm => h (by simp [hm]))]
    simp

theorem buildRec_foldl_mem (l : List (String × Value)) :
    ∀ (acc : Record) (kv : String × Value),
      kv ∈ l.foldl (fun acc kv => recUpsert kv.1 kv.2 acc) acc → kv ∈ acc ∨ kv ∈ l := by
  induction l with
  | nil => intro acc kv h; exact .inl h
  | cons p rest ih =>
    intro acc kv h
    rw [List.foldl_cons] at h
    rcases ih (recUpsert p.1 p.2 acc) kv h with h1 | h2
    · rcases mem_recUpsert _ _ _ _ h1 with h3 | h4
      · exact .inr (by simp [h3])
      · exact .inl h4
    · exact .inr (List.mem_cons_of_mem _ h2)

theorem buildRec_mem (l : List (String × Value)) (kv : String × Value)
    (h : kv ∈ buildRec l) : kv ∈ l := by
  rcases buildRec_foldl_mem l [] kv h with h1 | h2
  · cases h1
  · exact h2

theorem buildRec_foldl_keys_nodup (l : List (String × Value)) :
    ∀ acc : Record, (acc.map Prod.fst).Nodup →
      ((l.foldl (fun acc kv => recUpsert kv.1 kv.2 acc) acc).map Prod.fst).Nodup := by
  induction l with
  | nil => intro acc h; exact h
  | cons p rest ih =>
    intro acc h
    rw [List.foldl_cons]
    apply ih
    rw [recUpsert_keys]
    by_cases hm : p.1 ∈ acc.map Prod.fst
    · rwa [if_pos hm]
    · rw [if_neg hm]
      simp [List.nodup_append, h, hm]

theorem buildRec_keys_nodup (l : List (String × Value)) :
    ((buildRec l).map Prod.fst).Nodup :=
  buildRec_foldl_keys_nodup l [] (by simp)

theorem buildRec_foldl_of_nodup (l : List (String × Value)) :
    ∀ acc : Record, (((acc ++ l).map Prod.fst)).Nodup →
      l.foldl (fun acc kv => recUpsert kv.1 kv.2 acc) acc = acc ++ l := by
  induction l with
  | nil => intro acc _; simp
  | cons p rest ih =>
    intro acc h
    rw [List.foldl_cons]
    have hnm : ¬ p.1 ∈ acc.map Prod.fst := by
      rw [List.map_append] at h
      rcases List.nodup_append.mp h with ⟨_, _, hdisj⟩
      intro hm
      exact hdisj hm (by simp)
    rw [recUpsert_of_not_mem _ _ _ hnm]
    rw [ih (acc ++ [p]) (by simpa using h)]
    simp

theorem buildRec_idem (l : List (String × Value)) : buildRec (buildRec l) = buildRec l := by
  rw [buildRec, buildRec_foldl_of_nodup (buildRec l) [] (by simpa using buildRec_keys_nodup l)]
  simp

theorem cleanItem_idem (r : Record) : cleanItem (cleanItem r) = cleanItem r := by
  rw [cleanItem_eq_buildRec, cleanItem_eq_buildRec r]
  have hmap : (buildRec (r.map cleanPair)).map cleanPair = buildRec (r.map cleanPair) := by
    have hfix : ∀ kv ∈ buildRec (r.map cleanPair), cleanPair kv = kv := by
      intro kv hkv
      rcases List.mem_map.mp (buildRec_mem _ _ hkv) with ⟨kv0, _, hkv0⟩
      rw [← hkv0, cleanPair_idem]
    calc (buildRec (r.map cleanPair)).map cleanPair
        = (buildRec (r.map cleanPair)).map id := List.map_congr_left hfix
      _ = buildRec (r.map cleanPair) := List.map_id _
  rw [hmap, buildRec_idem]

/-- C9: the record normalizer's cleaning pass is idempotent — key
trimming/lowercasing/underscore replacement and digit-string coercion reach
a fixed point after one application. -/
theorem c9_clean_data_idempotent (data : List Record) :
    cleanData (cleanData data) = cleanData data := by
  rw [cleanData, cleanData, List.map_map]
  exact List.map_congr_left (fun r _ => cleanItem_idem r)
